import Mathlib

set_option maxRecDepth 100000

/-!
Verification of the Azure IoT device agent and its firmware updater.

The development shallowly embeds the Python sources:
  * `download.py`  — the updater (version parsing/ordering, build selection,
    artifact discovery, the `main` driver with its exit codes and config
    persistence);
  * `iot_service.py` — the agent (direct-method command dispatcher, heartbeat
    loop with cooperative 1-second sleeps, shutdown/disconnect sequence);
  * `device_setup.py` — the key-derivation step (`compute_derived_key`),
    backed by full executable implementations of SHA-256, HMAC and base64.

Pure Python functions become Lean functions; effectful steps (file IO, blob
listings, downloads, network sends) are passed in explicitly as outcome
oracles, so every path of the original control flow is represented.
-/

namespace Azure

/-- Selection by left fold, keeping the incumbent on ties: `pyBest better l`
replaces the incumbent by a later element `c` exactly when `better c best`.
With `better c best := key best < key c` this is Python's `max(l, key=key)`
(first maximal element wins); with `better c best := rank c < rank best` it is
`sorted(l, key=rank)[0]` (first minimal element wins). -/
def pyBest {α : Type} (better : α → α → Bool) : List α → Option α
  | [] => none
  | x :: xs => some (xs.foldl (fun best c => if better c best then c else best) x)

/-! ## Version parsing (`download.py`: `parse_build_version`, `is_version_newer`) -/

/-- Whitespace characters removed by Python's `str.strip()` (ASCII range). -/
def isPyWs (c : Char) : Bool :=
  c == ' ' || c == '\t' || c == '\n' || c == '\r' || c == Char.ofNat 11 || c == Char.ofNat 12

/-- Python's `version.strip()`: drop leading and trailing whitespace. -/
def pythonStrip (s : String) : String :=
  ⟨((s.toList.dropWhile isPyWs).reverse.dropWhile isPyWs).reverse⟩

/-- Value of a digit string, as computed by Python's `int(...)` on it. -/
def digitsToNat (l : List Char) : Nat :=
  l.foldl (fun a c => 10 * a + (c.toNat - 48)) 0

/-- The anchored regex `^(\d{8})\.(\d+)$` of `download.py`, as a predicate on
the character list: eight digits, a dot, then a non-empty run of digits. -/
def versionMatches (cs : List Char) : Prop :=
  (cs.take 8).length = 8 ∧ (cs.take 8).all Char.isDigit = true ∧
  (cs.drop 8).head? = some '.' ∧ cs.drop 9 ≠ [] ∧ (cs.drop 9).all Char.isDigit = true

instance : DecidablePred versionMatches := fun cs => by
  unfold versionMatches
  infer_instance

/-- Core of `parse_build_version` after stripping: apply the anchored regex
`^(\d{8})\.(\d+)$` and convert the two groups with `int`, or fall back to the
`(0, 0)` sentinel (the `except` branch of the source). -/
def parseCore (s : String) : Nat × Nat :=
  if versionMatches s.toList then
    (digitsToNat (s.toList.take 8), digitsToNat (s.toList.drop 9))
  else (0, 0)

/-- `parse_build_version` from `download.py`: strip, then match the regex. -/
def parse_build_version (version : String) : Nat × Nat :=
  parseCore (pythonStrip version)

/-- Python's lexicographic comparison on the parsed `(date, sequence)` pairs. -/
def verLt (a b : Nat × Nat) : Bool :=
  decide (a.1 < b.1) || (decide (a.1 = b.1) && decide (a.2 < b.2))

/-- `is_version_newer(candidate, baseline)` from `download.py`. -/
def is_version_newer (candidate baseline : String) : Bool :=
  verLt (parse_build_version baseline) (parse_build_version candidate)

/-- `find_newer_build(available_builds, current_version)` from `download.py`:
filter to strictly newer candidates, `None` when the filter is empty, else
Python's `max(..., key=parse_build_version)`. -/
def find_newer_build (available_builds : List String) (current_version : String) :
    Option String :=
  pyBest (fun c best => verLt (parse_build_version best) (parse_build_version c))
    (available_builds.filter (fun b => is_version_newer b current_version))

/-- A string matching the anchored regex `^\d{8}\.\d+$` (no stripping): the
well-formedness notion used by the spec for build versions. -/
def wellFormed (s : String) : Bool :=
  decide (versionMatches s.toList)

/-! ## String helpers on character lists (kernel-computable analogues of the
Python `str` operations used by `download.py`) -/

def toLowerL (cs : List Char) : List Char := cs.map Char.toLower

def isPrefixOfL : List Char → List Char → Bool
  | [], _ => true
  | _ :: _, [] => false
  | a :: as, b :: bs => a == b && isPrefixOfL as bs

def isSuffixOfL (s l : List Char) : Bool := isPrefixOfL s.reverse l.reverse

def isInfixOfL (s : List Char) : List Char → Bool
  | [] => s.isEmpty
  | c :: tl => isPrefixOfL s (c :: tl) || isInfixOfL s tl

/-- Python string `<`: lexicographic comparison by code point. -/
def strLtL : List Char → List Char → Bool
  | [], [] => false
  | [], _ :: _ => true
  | _ :: _, [] => false
  | a :: as, b :: bs => decide (a < b) || (a == b && strLtL as bs)

/-- Python's `str.split(sep)` for a one-character separator. -/
def splitOnCharL (sep : Char) : List Char → List (List Char)
  | [] => [[]]
  | c :: tl =>
    match splitOnCharL sep tl with
    | [] => [[c]]
    | h :: t => if c == sep then [] :: h :: t else (c :: h) :: t

/-! ## Blob listing and artifact discovery (`download.py`) -/

/-- `normalize_base_path`: Python `base_path.strip("/")`. -/
def normalize_base_path (basePath : String) : String :=
  ⟨((basePath.toList.dropWhile (· == '/')).reverse.dropWhile (· == '/')).reverse⟩

/-- `extract_build_number_from_blob_name(blob_name, blob_base_path)`: the path
segment immediately after the base path, or `None`. -/
def extract_build_number_from_blob_name (blobName blobBasePath : String) : Option String :=
  let parts := splitOnCharL '/' blobName.toList
  let baseParts := if blobBasePath.toList.isEmpty then [] else splitOnCharL '/' blobBasePath.toList
  if parts.length < baseParts.length + 1 then none
  else if baseParts ≠ [] ∧ parts.take baseParts.length ≠ baseParts then none
  else if parts.length ≤ baseParts.length then none
  else (parts.get? baseParts.length).map (fun l => ⟨l⟩)

/-- `list_available_builds(container, blob_base_path)`: the blob store's
prefix listing is passed in as `blobNames`; collect the build segments of the
names under `<base>/` into a set (modelled as a de-duplicated list, empty
segments discarded by the `if build:` truthiness test). -/
def list_available_builds (blobBasePath : String) (blobNames : List String) : List String :=
  let pfx := if blobBasePath.toList.isEmpty then [] else blobBasePath.toList ++ ['/']
  (((blobNames.filter (fun n => isPrefixOfL pfx n.toList)).filterMap
      (fun n => extract_build_number_from_blob_name n blobBasePath)).filter
      (fun b => !b.toList.isEmpty)).eraseDups

/-- The per-blob acceptance test of `find_raspberrypi_blob_path`, applied to
the lower-cased name (allow-list names, else the any-file fallback that only
excludes directory placeholders and checksum files). -/
def rpiAccept (nl : List Char) : Bool :=
  isSuffixOfL "/nexusrfidreader".toList nl || isSuffixOfL "/nexusrfidreader.exe".toList nl ||
  isSuffixOfL "/nexusrfidpoc".toList nl || isSuffixOfL "/nexusrfidpoc.exe".toList nl ||
  (!isSuffixOfL "/".toList nl && !isSuffixOfL ".md5".toList nl &&
    !isSuffixOfL ".sha256".toList nl)

/-- The candidate list of `find_raspberrypi_blob_path`: names under
`<base>/<build>/` whose lower-cased form contains `/raspberrypi/` and passes
`rpiAccept`, in listing order. -/
def rpiCandidates (blobBasePath build : String) (blobs : List String) : List String :=
  (blobs.filter (fun n =>
      isPrefixOfL (blobBasePath.toList ++ ['/'] ++ build.toList ++ ['/']) n.toList)).filter
    (fun n => isInfixOfL "/raspberrypi/".toList (toLowerL n.toList) && rpiAccept (toLowerL n.toList))

/-- The ranking of `sorted(candidates, key=lambda n: (n.lower().endswith(".exe"), n))`:
`c` ranks strictly before `best` iff its key tuple is smaller. -/
def rankBetter (c best : String) : Bool :=
  (!isSuffixOfL ".exe".toList (toLowerL c.toList) &&
    isSuffixOfL ".exe".toList (toLowerL best.toList)) ||
  ((isSuffixOfL ".exe".toList (toLowerL c.toList) ==
      isSuffixOfL ".exe".toList (toLowerL best.toList)) && strLtL c.toList best.toList)

/-- `find_raspberrypi_blob_path(container, blob_base_path, build)`: `listing`
is the result of the remote enumeration (`none` models the `except` branch —
any listing error yields `None`); otherwise the first-ranked candidate, or
`None` when there is no candidate. -/
def find_raspberrypi_blob_path (blobBasePath build : String)
    (listing : Option (List String)) : Option String :=
  match listing with
  | none => none
  | some blobs => pyBest rankBetter (rpiCandidates blobBasePath build blobs)

/-- The artifact-selection procedure exactly as the spec's words describe it
(for comparison with `find_raspberrypi_blob_path`): first only allow-list
names under a case-insensitive `RaspberryPi` segment; only if none match,
an arbitrary non-directory, non-checksum file; rank and take the first. -/
def specLocateArtifact (blobBasePath build : String) (blobs : List String) : Option String :=
  let underBuild := blobs.filter (fun n =>
    isPrefixOfL (blobBasePath.toList ++ ['/'] ++ build.toList ++ ['/']) n.toList)
  let allowListed := underBuild.filter (fun n =>
    isInfixOfL "/raspberrypi/".toList (toLowerL n.toList) &&
    (isSuffixOfL "/nexusrfidreader".toList (toLowerL n.toList) ||
     isSuffixOfL "/nexusrfidreader.exe".toList (toLowerL n.toList) ||
     isSuffixOfL "/nexusrfidpoc".toList (toLowerL n.toList) ||
     isSuffixOfL "/nexusrfidpoc.exe".toList (toLowerL n.toList)))
  let fallback := underBuild.filter (fun n =>
    !isSuffixOfL "/".toList (toLowerL n.toList) &&
    !isSuffixOfL ".md5".toList (toLowerL n.toList) &&
    !isSuffixOfL ".sha256".toList (toLowerL n.toList))
  pyBest rankBetter (if allowListed ≠ [] then allowListed else fallback)

/-! ## The updater driver (`download.py`: `main`) -/

/-- The `deviceUpdate` sub-record of the provisioning config. A missing or
empty field is modelled as `""` (both are falsy in the source's check). -/
structure DeviceUpdate where
  storageAccount : String
  containerName : String
  blobBasePath : String
  currentVersion : String
  sasToken : String

/-- The provisioning config as far as `main` reads it. -/
structure ProvConfig where
  deviceUpdate : DeviceUpdate

/-- Outcome of `load_provisioning_config`. -/
inductive LoadResult where
  | notFound
  | badJson
  | ok (config : ProvConfig)

/-- Outcomes of the effectful steps of one updater run. `listing = none`
models an exception in the build enumeration (exit 4); `artifactListing =
none` models an exception inside `find_raspberrypi_blob_path` (swallowed
there, `None` result); `fallbackExists` is `blob_exists` (it swallows its own
errors); `persistOk = false` is a failing config rewrite (warning only). -/
structure UpdaterEnv where
  load : LoadResult
  clientOk : Bool
  listing : Option (List String)
  artifactListing : Option (List String)
  fallbackExists : Bool
  downloadOk : Bool
  persistOk : Bool

/-- The `missing_fields` check of `main`: truthiness of each required
`deviceUpdate` field, the base path after normalization. -/
def requiredMissing (du : DeviceUpdate) : Bool :=
  du.storageAccount.toList.isEmpty || du.containerName.toList.isEmpty ||
  (normalize_base_path du.blobBasePath).toList.isEmpty ||
  du.currentVersion.toList.isEmpty || du.sasToken.toList.isEmpty

/-- Python's `max(available_builds, key=parse_build_version)` (first maximal
element wins on parsed-value ties), `none` on an empty collection. -/
def maxByParsed (builds : List String) : Option String :=
  pyBest (fun c best => verLt (parse_build_version best) (parse_build_version c)) builds

/-- Steps 4's artifact selection: discovery via `find_raspberrypi_blob_path`,
else the fixed fallback path `<base>/<build>/RaspberryPi/NexusRFIDReader`
when `blob_exists` confirms it. -/
def selectedArtifact (env : UpdaterEnv) (bbp latest : String) : Option String :=
  match find_raspberrypi_blob_path bbp latest env.artifactListing with
  | some p => some p
  | none =>
    if env.fallbackExists then some (bbp ++ "/" ++ latest ++ "/RaspberryPi/NexusRFIDReader")
    else none

/-- `main(argv)` of `download.py` as a function of the effect outcomes.
Returns the process exit code together with the list of `currentVersion`
values successfully persisted back to the config file (so `[]` means the file
is bit-for-bit unchanged). -/
def mainRun (env : UpdaterEnv) : Nat × List String :=
  match env.load with
  | .notFound => (2, [])
  | .badJson => (2, [])
  | .ok config =>
    let du := config.deviceUpdate
    let bbp := normalize_base_path du.blobBasePath
    if requiredMissing du then (2, [])
    else if !env.clientOk then (3, [])
    else match env.listing with
      | none => (4, [])
      | some blobNames =>
        match maxByParsed (list_available_builds bbp blobNames) with
        | none => (0, [])
        | some latest =>
          if !(is_version_newer latest du.currentVersion) then (0, [])
          else match selectedArtifact env bbp latest with
            | none => (0, [])
            | some _ =>
              if !env.downloadOk then (5, [])
              else if env.persistOk then (0, [latest]) else (0, [])

/-! ## The agent (`iot_service.py`: direct-method dispatch and the run loop) -/

/-- A direct-method response payload: the two structured shapes built by the
handler in `_register_direct_method_handler`. -/
inductive MethodPayload where
  | errorP (message : String)
  | successP (returnCode : Int) (stdout stderr : String)
deriving DecidableEq

/-- Outcome of `subprocess.run(command, shell=True, ..., timeout=300)`:
`completed` is a normal return (any exit status, a failing command included);
`failed` is any raised exception (`TimeoutExpired` after the hard 300-second
timeout, `OSError`, ...), whose message the handler stringifies. -/
inductive ExecOutcome where
  | completed (returnCode : Int) (stdout stderr : String)
  | failed (message : String)

/-- The hard wall-clock timeout passed to `subprocess.run` (seconds). -/
def commandTimeoutSeconds : Nat := 300

/-- The direct-method handler: status code and payload for one request, as a
total function of the request's `command` field and the execution outcome. -/
def handleMethodRequest (command : Option String) (exec : ExecOutcome) :
    Nat × MethodPayload :=
  match command with
  | none => (400, .errorP "No command provided")
  | some c =>
    if c.toList.isEmpty then (400, .errorP "No command provided")
    else match exec with
      | .completed rc out err => (200, .successP rc out err)
      | .failed m => (500, .errorP m)

/-- Observable actions of one agent run (`AzureIoTService.run`). -/
inductive AgentEvent where
  | provisionAttempt
  | connectAttempt
  | heartbeatSend
  | heartbeatFail
  | sleepSec
  | finalMsg
  | disconnect
deriving DecidableEq

/-- Oracles of one agent run: outcomes of provisioning and of the initial
connect, the per-tick heartbeat send outcome, and the `self.running` flag as
observed by a check occurring after `t` seconds of sleeping. -/
structure RunEnv where
  provisionOk : Bool
  connectOk : Bool
  sendOk : Nat → Bool
  running : Nat → Bool

/-- The inner `for _ in range(60)` sleep phase started at time `t` with `n`
iterations left: check the flag, stop if cleared, else sleep one second.
Returns the number of one-second sleeps performed. -/
def sleepCount (running : Nat → Bool) (t : Nat) : Nat → Nat
  | 0 => 0
  | n + 1 => if running t then 1 + sleepCount running (t + 1) n else 0

/-- One heartbeat attempt: with a live client, a failing send invalidates the
reference (`self.client = None`); with `client = None`, the attribute access
raises, the exception is caught, and the reference stays `None`. -/
def heartbeatIter (client : Option Unit) (sendOkNow : Bool) :
    List AgentEvent × Option Unit :=
  match client with
  | some _ =>
    if sendOkNow then ([.heartbeatSend], client) else ([.heartbeatSend, .heartbeatFail], none)
  | none => ([.heartbeatFail], none)

/-- The `while self.running` loop of `run`, with explicit fuel (each unit of
fuel is one outer iteration; the loop body never raises, so a run with enough
fuel ends only by the flag). Returns the event trace and the final client. -/
def runLoop (env : RunEnv) : Nat → Option Unit → Nat → List AgentEvent × Option Unit
  | 0, client, _ => ([], client)
  | fuel + 1, client, t =>
    if env.running t then
      let step := heartbeatIter client (env.sendOk t)
      let slept := sleepCount env.running t 60
      let rest := runLoop env fuel step.2 (t + slept)
      (step.1 ++ List.replicate slept .sleepSec ++ rest.1, rest.2)
    else ([], client)

/-- `AzureIoTService.run`: provision (return on failure), connect (return on
failure), run the heartbeat loop, and in the `finally` block send the last
status message and disconnect — only when the client reference is still set;
secondary errors there are swallowed. -/
def runAgent (env : RunEnv) (fuel : Nat) : List AgentEvent :=
  if !env.provisionOk then [.provisionAttempt]
  else if !env.connectOk then [.provisionAttempt, .connectAttempt]
  else
    let loop := runLoop env fuel (some ()) 0
    [.provisionAttempt, .connectAttempt] ++ loop.1 ++
      (match loop.2 with
       | some _ => [.finalMsg, .disconnect]
       | none => [])

/-! ## Key derivation (`device_setup.py`: `compute_derived_key`), with full
executable SHA-256, HMAC and base64. Bytes are `Nat` values below 256 and
32-bit words are `Nat` values reduced modulo `2 ^ 32`. -/

def w32 (n : Nat) : Nat := n % 4294967296

def rotr32 (n x : Nat) : Nat := w32 ((x >>> n) ||| (x <<< (32 - n)))

def bigSigma0 (x : Nat) : Nat := rotr32 2 x ^^^ rotr32 13 x ^^^ rotr32 22 x

def bigSigma1 (x : Nat) : Nat := rotr32 6 x ^^^ rotr32 11 x ^^^ rotr32 25 x

def smallSigma0 (x : Nat) : Nat := rotr32 7 x ^^^ rotr32 18 x ^^^ (x >>> 3)

def smallSigma1 (x : Nat) : Nat := rotr32 17 x ^^^ rotr32 19 x ^^^ (x >>> 10)

def chFn (x y z : Nat) : Nat := (x &&& y) ^^^ ((x ^^^ 4294967295) &&& z)

def majFn (x y z : Nat) : Nat := (x &&& y) ^^^ (x &&& z) ^^^ (y &&& z)

/-- The 64 SHA-256 round constants. -/
def shaK : List Nat :=
  [1116352408, 1899447441, 3049323471, 3921009573, 961987163, 1508970993, 2453635748,
   2870763221, 3624381080, 310598401, 607225278, 1426881987, 1925078388, 2162078206,
   2614888103, 3248222580, 3835390401, 4022224774, 264347078, 604807628, 770255983,
   1249150122, 1555081692, 1996064986, 2554220882, 2821834349, 2952996808, 3210313671,
   3336571891, 3584528711, 113926993, 338241895, 666307205, 773529912, 1294757372,
   1396182291, 1695183700, 1986661051, 2177026350, 2456956037, 2730485921, 2820302411,
   3259730800, 3345764771, 3516065817, 3600352804, 4094571909, 275423344, 430227734,
   506948616, 659060556, 883997877, 958139571, 1322822218, 1537002063, 1747873779,
   1955562222, 2024104815, 2227730452, 2361852424, 2428436474, 2756734187, 3204031479,
   3329325298]

/-- The SHA-256 initial hash state. -/
def shaH0 : List Nat :=
  [1779033703, 3144134277, 1013904242, 2773480762, 1359893119, 2600822924, 528734635,
   1541459225]

/-- Big-endian byte expansion of `n` into `k` bytes. -/
def bigEndianBytes (k n : Nat) : List Nat :=
  (List.range k).map (fun i => (n >>> (8 * (k - 1 - i))) % 256)

/-- SHA-256 padding: `0x80`, zeros to 56 mod 64, then the 64-bit bit length. -/
def padMessage (msg : List Nat) : List Nat :=
  msg ++ [128] ++ List.replicate ((119 - msg.length % 64) % 64) 0 ++
    bigEndianBytes 8 (msg.length * 8)

def toBlocksAux : Nat → List Nat → List (List Nat)
  | 0, _ => []
  | _, [] => []
  | n + 1, l => l.take 64 :: toBlocksAux n (l.drop 64)

/-- Split a (padded) byte list into 64-byte blocks. -/
def toBlocks (l : List Nat) : List (List Nat) := toBlocksAux l.length l

def bytesToWords : List Nat → List Nat
  | a :: b :: c :: d :: rest => (((a * 256 + b) * 256 + c) * 256 + d) :: bytesToWords rest
  | _ => []

/-- Extend the 16-word message schedule by `steps` further words. -/
def extendW : List Nat → Nat → List Nat
  | ws, 0 => ws
  | ws, n + 1 =>
    extendW (ws ++ [w32 (smallSigma1 (ws.getD (ws.length - 2) 0) + ws.getD (ws.length - 7) 0 +
      smallSigma0 (ws.getD (ws.length - 15) 0) + ws.getD (ws.length - 16) 0)]) n

/-- One SHA-256 compression round on the 8-word working state. -/
def roundStep (st : List Nat) (k w : Nat) : List Nat :=
  match st with
  | [a, b, c, d, e, f, g, h] =>
    [w32 (w32 (h + bigSigma1 e + chFn e f g + k + w) + w32 (bigSigma0 a + majFn a b c)),
     a, b, c, w32 (d + w32 (h + bigSigma1 e + chFn e f g + k + w)), e, f, g]
  | st => st

def processBlock (h : List Nat) (block : List Nat) : List Nat :=
  List.zipWith (fun a b => w32 (a + b)) h
    ((List.zip shaK (extendW (bytesToWords block) 48)).foldl
      (fun s p => roundStep s p.1 p.2) h)

/-- SHA-256 of a byte list, as a 32-byte list. -/
def sha256 (msg : List Nat) : List Nat :=
  (((toBlocks (padMessage msg)).foldl processBlock shaH0).map (bigEndianBytes 4)).flatten

/-- HMAC-SHA256 (`hmac.new(key, msg, hashlib.sha256).digest()`). -/
def hmacSha256 (key msg : List Nat) : List Nat :=
  let key1 := if 64 < key.length then sha256 key else key
  let kpad := key1 ++ List.replicate (64 - key1.length) 0
  sha256 ((kpad.map (fun b => b ^^^ 92)) ++ sha256 ((kpad.map (fun b => b ^^^ 54)) ++ msg))

def b64Alphabet : List Char :=
  "ABCDEFGHIJKLMNOPQRSTUVWXYZabcdefghijklmnopqrstuvwxyz0123456789+/".toList

def b64Char (n : Nat) : Char := b64Alphabet.getD n 'A'

def base64EncodeCore : List Nat → List Char
  | [] => []
  | [a] => [b64Char (a / 4), b64Char (a % 4 * 16), '=', '=']
  | [a, b] => [b64Char (a / 4), b64Char (a % 4 * 16 + b / 16), b64Char (b % 16 * 4), '=']
  | a :: b :: c :: rest =>
    b64Char (a / 4) :: b64Char (a % 4 * 16 + b / 16) :: b64Char (b % 16 * 4 + c / 64) ::
      b64Char (c % 64) :: base64EncodeCore rest

/-- `base64.b64encode(...).decode('utf-8')`. -/
def base64Encode (bytes : List Nat) : String := ⟨base64EncodeCore bytes⟩

def b64Val (c : Char) : Option Nat :=
  if 'A' ≤ c ∧ c ≤ 'Z' then some (c.toNat - 65)
  else if 'a' ≤ c ∧ c ≤ 'z' then some (c.toNat - 71)
  else if '0' ≤ c ∧ c ≤ '9' then some (c.toNat + 4)
  else if c = '+' then some 62
  else if c = '/' then some 63
  else none

def b64DecodeQuads : List Nat → List Nat
  | a :: b :: c :: d :: rest =>
    (a * 4 + b / 16) :: (b % 16 * 16 + c / 4) :: (c % 4 * 64 + d) :: b64DecodeQuads rest
  | [a, b] => [a * 4 + b / 16]
  | [a, b, c] => [a * 4 + b / 16, b % 16 * 16 + c / 4]
  | _ => []

/-- `base64.b64decode` (default non-validating mode): characters outside the
alphabet are discarded, `=` is trailing padding, and malformed padding
raises — modelled as `none`. -/
def base64Decode (s : String) : Option (List Nat) :=
  let kept := s.toList.filter (fun c => (b64Val c).isSome || c == '=')
  let dataChars := kept.takeWhile (fun c => c != '=')
  let pads := kept.length - dataChars.length
  if (kept.drop dataChars.length).all (fun c => c == '=') ∧ pads ≤ 2 ∧
      (dataChars.length + pads) % 4 = 0 then
    some (b64DecodeQuads (dataChars.filterMap b64Val))
  else none

/-- `registration_id.encode('utf-8')`. -/
def utf8Bytes (s : String) : List Nat :=
  (s.toList.map (fun c =>
    if c.toNat < 128 then [c.toNat]
    else if c.toNat < 2048 then [192 + c.toNat / 64, 128 + c.toNat % 64]
    else if c.toNat < 65536 then
      [224 + c.toNat / 4096, 128 + c.toNat / 64 % 64, 128 + c.toNat % 64]
    else
      [240 + c.toNat / 262144, 128 + c.toNat / 4096 % 64, 128 + c.toNat / 64 % 64,
       128 + c.toNat % 64])).flatten

/-- `compute_derived_key(group_key, registration_id)` from `device_setup.py`:
base64-decode the group key, HMAC-SHA256 the UTF-8 registration id with it,
base64-encode the digest; any exception (a bad group key) yields `None`. -/
def compute_derived_key (group_key registration_id : String) : Option String :=
  match base64Decode group_key with
  | none => none
  | some keyBytes => some (base64Encode (hmacSha256 keyBytes (utf8Bytes registration_id)))

/-! ## Further definitions used by the claim statements -/

/-- The inline update decision of `main` (steps 2–3): take the maximum of all
available builds by parsed value, and proceed with it only when it is strictly
newer than the current version. -/
def mainInlineSelect (builds : List String) (cur : String) : Option String :=
  match maxByParsed builds with
  | none => none
  | some latest => if is_version_newer latest cur then some latest else none

/-- Agent run in which the heartbeat send fails at tick 0, later sends would
succeed, and the shutdown flag is cleared at time 150. -/
def agentEnvSendFail : RunEnv :=
  ⟨true, true, fun t => decide (0 < t), fun t => decide (t < 150)⟩

/-- Agent run in which the initial connect fails. -/
def agentEnvConnFail : RunEnv := ⟨true, false, fun _ => true, fun _ => true⟩

/-- Agent run in which the heartbeat send fails at tick 0 and the shutdown
flag is cleared at time 100. -/
def agentEnvFailThenStop : RunEnv :=
  ⟨true, true, fun t => decide (0 < t), fun t => decide (t < 100)⟩

/-- A fully-populated provisioning config for concrete updater runs. -/
def updCfg : ProvConfig := ⟨⟨"acct", "cont", "builds", "20240101.9", "sas"⟩⟩

/-- An updater run that reaches the download step and fails there. -/
def updEnvDlFail : UpdaterEnv :=
  ⟨.ok updCfg, true, some ["builds/20250101.1/RaspberryPi/NexusRFIDReader"],
   some ["builds/20250101.1/RaspberryPi/NexusRFIDReader"], false, false, true⟩

/-! ## Lemmas and claim theorems -/

theorem pyBest_foldl_mem {α : Type} (better : α → α → Bool) (xs : List α) (x : α) :
    xs.foldl (fun best c => if better c best then c else best) x ∈ x :: xs := by
  induction xs generalizing x with
  | nil => simp [List.foldl]
  | cons y ys ih =>
    simp only [List.foldl, List.mem_cons]
    by_cases hb : better y x = true
    · simp only [hb, if_true]
      rcases List.mem_cons.mp (ih y) with h | h
      · exact Or.inr (Or.inl h)
      · exact Or.inr (Or.inr h)
    · have hb' : better y x = false := by
        cases hx : better y x
        · rfl
        · exact absurd hx hb
      simp only [hb', Bool.false_eq_true, if_false]
      rcases List.mem_cons.mp (ih x) with h | h
      · exact Or.inl h
      · exact Or.inr (Or.inr h)

/-- The fold result is the initial element or strictly better than it. -/
theorem pyBest_foldl_chain {α : Type} (better : α → α → Bool)
    (htrans : ∀ a b c, better a b = true → better b c = true → better a c = true)
    (ys : List α) :
    ∀ b : α,
      ys.foldl (fun best c => if better c best then c else best) b = b ∨
      better (ys.foldl (fun best c => if better c best then c else best) b) b = true := by
  induction ys with
  | nil => intro b; exact Or.inl rfl
  | cons y ys ih =>
    intro b
    simp only [List.foldl]
    by_cases hb : better y b = true
    · simp only [hb, if_true]
      rcases ih y with h | h
      · right; rw [h]; exact hb
      · right; exact htrans _ _ _ h hb
    · have hb' : better y b = false := by
        cases h : better y b
        · rfl
        · exact absurd h hb
      simp only [hb', Bool.false_eq_true, if_false]
      exact ih b

/-- No element of the scanned list is strictly better than the fold result. -/
theorem pyBest_foldl_best {α : Type} (better : α → α → Bool)
    (htrans : ∀ a b c, better a b = true → better b c = true → better a c = true)
    (hirr : ∀ a, better a a = false) (ys : List α) :
    ∀ b : α, ∀ q ∈ b :: ys,
      better q (ys.foldl (fun best c => if better c best then c else best) b) = false := by
  induction ys with
  | nil =>
    intro b q hq
    simp only [List.mem_singleton] at hq
    subst hq
    simpa [List.foldl] using hirr q
  | cons y ys ih =>
    intro b q hq
    simp only [List.mem_cons] at hq
    simp only [List.foldl]
    by_cases hb : better y b = true
    · simp only [hb, if_true]
      rcases hq with h | h | h
      · subst h
        by_contra hbad
        have hbr : better q (ys.foldl (fun best c => if better c best then c else best) y)
            = true := by
          cases hqr : better q (ys.foldl (fun best c => if better c best then c else best) y)
          · exact absurd hqr hbad
          · rfl
        have hyq : better y (ys.foldl (fun best c => if better c best then c else best) y)
            = true := htrans _ _ _ hb hbr
        have := ih y y (List.mem_cons_self y ys)
        rw [this] at hyq
        exact Bool.false_ne_true hyq
      · rw [h]
        exact ih y y (List.mem_cons_self y ys)
      · exact ih y q (List.mem_cons_of_mem y h)
    · have hb' : better y b = false := by
        cases h : better y b
        · rfl
        · exact absurd h hb
      simp only [hb', Bool.false_eq_true, if_false]
      rcases hq with h | h | h
      · rw [h]
        exact ih b b (List.mem_cons_self b ys)
      · rw [h]
        rcases pyBest_foldl_chain better htrans ys b with hc | hc
        · rw [hc]; exact hb'
        · by_contra hbad
          have hqr : better y (ys.foldl (fun best c => if better c best then c else best) b)
              = true := by
            cases hx : better y (ys.foldl (fun best c => if better c best then c else best) b)
            · exact absurd hx hbad
            · rfl
          have : better y b = true := htrans _ _ _ hqr hc
          rw [hb'] at this
          exact Bool.false_ne_true this
      · exact ih b q (List.mem_cons_of_mem b h)

/-- Combined specification of `pyBest`: the result is a member of the list and
no list element is strictly better than it. -/
theorem pyBest_spec {α : Type} (better : α → α → Bool)
    (htrans : ∀ a b c, better a b = true → better b c = true → better a c = true)
    (hirr : ∀ a, better a a = false) (l : List α) (r : α)
    (h : pyBest better l = some r) :
    r ∈ l ∧ ∀ q ∈ l, better q r = false := by
  cases l with
  | nil => simp [pyBest] at h
  | cons x xs =>
    simp only [pyBest, Option.some.injEq] at h
    subst h
    exact ⟨pyBest_foldl_mem better xs x, pyBest_foldl_best better htrans hirr xs x⟩

theorem pyBest_eq_none {α : Type} (better : α → α → Bool) (l : List α) :
    pyBest better l = none ↔ l = [] := by
  cases l <;> simp [pyBest]

theorem verLt_iff (a b : Nat × Nat) :
    verLt a b = true ↔ a.1 < b.1 ∨ (a.1 = b.1 ∧ a.2 < b.2) := by
  simp [verLt]

theorem verLt_trans (a b c : Nat × Nat) (h1 : verLt a b = true) (h2 : verLt b c = true) :
    verLt a c = true := by
  rw [verLt_iff] at h1 h2 ⊢
  omega

theorem verLt_irrefl (a : Nat × Nat) : verLt a a = false := by
  simp [verLt]

theorem verLt_connex (a b : Nat × Nat) (h1 : verLt a b = false) (h2 : verLt b a = false) :
    a = b := by
  have h1' : ¬(a.1 < b.1 ∨ (a.1 = b.1 ∧ a.2 < b.2)) := by
    rw [← verLt_iff, h1]; exact Bool.false_ne_true
  have h2' : ¬(b.1 < a.1 ∨ (b.1 = a.1 ∧ b.2 < a.2)) := by
    rw [← verLt_iff, h2]; exact Bool.false_ne_true
  rcases a with ⟨a1, a2⟩
  rcases b with ⟨b1, b2⟩
  simp only at h1' h2'
  have : a1 = b1 ∧ a2 = b2 := by omega
  simp [this.1, this.2]

theorem dropWhile_all_neg {p : Char → Bool} {l : List Char}
    (h : ∀ c ∈ l, p c = false) : l.dropWhile p = l := by
  cases l with
  | nil => rfl
  | cons c cs =>
    rw [List.dropWhile_cons, h c (List.mem_cons_self c cs)]
    simp

/-- Stripping is the identity on strings with no surrounding whitespace. -/
theorem pythonStrip_eq_self (s : String) (h : ∀ c ∈ s.toList, isPyWs c = false) :
    pythonStrip s = s := by
  unfold pythonStrip
  rw [dropWhile_all_neg h, dropWhile_all_neg, List.reverse_reverse]
  · cases s; rfl
  · intro c hc
    exact h c (List.mem_reverse.mp hc)

theorem parseCore_of_matches (s : String) (h : versionMatches s.toList) :
    parseCore s = (digitsToNat (s.toList.take 8), digitsToNat (s.toList.drop 9)) := by
  unfold parseCore
  rw [if_pos h]

theorem parseCore_sentinel (s : String) (h : ¬ versionMatches s.toList) :
    parseCore s = (0, 0) := by
  unfold parseCore
  rw [if_neg h]

theorem isPyWs_of_digit (c : Char) (h : c.isDigit = true) : isPyWs c = false := by
  cases hc : isPyWs c
  · rfl
  · exfalso
    simp only [isPyWs, Bool.or_eq_true, beq_iff_eq] at hc
    rcases hc with ((((rfl | rfl) | rfl) | rfl) | rfl) | rfl <;> exact absurd h (by decide)

/-- Every character of a well-formed version string is a digit or the dot,
hence never whitespace. -/
theorem wellFormed_chars_not_ws (s : String) (hw : wellFormed s = true) :
    ∀ c ∈ s.toList, isPyWs c = false := by
  rw [wellFormed, decide_eq_true_eq] at hw
  obtain ⟨hlen, hdig, hdot, hne, hdig2⟩ := hw
  intro c hc
  rw [← List.take_append_drop 8 s.toList] at hc
  rcases List.mem_append.mp hc with h8 | hdrop
  · exact isPyWs_of_digit c (List.all_eq_true.mp hdig c h8)
  · cases hd : s.toList.drop 8 with
    | nil => rw [hd] at hdrop; simp at hdrop
    | cons a t =>
      rw [hd] at hdot hdrop
      simp only [List.head?_cons, Option.some.injEq] at hdot
      have ht : t = s.toList.drop 9 := by
        have := List.tail_drop s.toList 8
        rw [hd] at this
        simpa using this
      rcases List.mem_cons.mp hdrop with h | h
      · rw [h, hdot]
        decide
      · rw [ht] at h
        exact isPyWs_of_digit c (List.all_eq_true.mp hdig2 c h)

/-- Round-trip on well-formed versions: the parser returns the two numeric
components (`int(date)`, `int(sequence)`). -/
theorem parse_of_wellFormed (s : String) (hw : wellFormed s = true) :
    parse_build_version s = (digitsToNat (s.toList.take 8), digitsToNat (s.toList.drop 9)) := by
  rw [parse_build_version, pythonStrip_eq_self s (wellFormed_chars_not_ws s hw)]
  exact parseCore_of_matches s ((decide_eq_true_eq).mp hw)

/-- Strings whose stripped form does not match the regex hit the sentinel. -/
theorem parse_sentinel (s : String) (h : wellFormed (pythonStrip s) = false) :
    parse_build_version s = (0, 0) := by
  rw [parse_build_version]
  unfold wellFormed at h
  exact parseCore_sentinel _ (of_decide_eq_false h)

theorem find_newer_build_none (avail : List String) (cur : String) :
    find_newer_build avail cur = none ↔ ∀ b ∈ avail, is_version_newer b cur = false := by
  rw [find_newer_build, pyBest_eq_none, List.filter_eq_nil_iff]
  constructor
  · intro h b hb
    have := h b hb
    simpa using this
  · intro h b hb
    simp [h b hb]

/-- Characterization of a successful `find_newer_build`: the result is an
available build, strictly newer than the current version, and of maximal
parsed value among the strictly newer candidates. -/
theorem find_newer_build_some (avail : List String) (cur r : String)
    (h : find_newer_build avail cur = some r) :
    r ∈ avail ∧ is_version_newer r cur = true ∧
    ∀ q ∈ avail, is_version_newer q cur = true →
      verLt (parse_build_version r) (parse_build_version q) = false := by
  have hspec := pyBest_spec
    (fun c best => verLt (parse_build_version best) (parse_build_version c))
    (fun a b c h1 h2 => verLt_trans _ _ _ h2 h1)
    (fun a => verLt_irrefl _)
    (avail.filter (fun b => is_version_newer b cur)) r h
  obtain ⟨hmem, hbest⟩ := hspec
  have hm := List.mem_filter.mp hmem
  refine ⟨hm.1, hm.2, ?_⟩
  intro q hq hqn
  exact hbest q (List.mem_filter.mpr ⟨hq, hqn⟩)

/-- Implementation check: SHA-256 of the empty message (FIPS 180-4 vector). -/
theorem sha256_empty_vector :
    sha256 [] = [227, 176, 196, 66, 152, 252, 28, 20, 154, 251, 244, 200, 153, 111, 185, 36,
      39, 174, 65, 228, 100, 155, 147, 76, 164, 149, 153, 27, 120, 82, 184, 85] := by
  decide

/-- Implementation check: SHA-256 of `"abc"` (FIPS 180-4 vector). -/
theorem sha256_abc_vector :
    sha256 (utf8Bytes "abc") = [186, 120, 22, 191, 143, 1, 207, 234, 65, 65, 64, 222, 93,
      174, 34, 35, 176, 3, 97, 163, 150, 23, 122, 156, 180, 16, 255, 97, 242, 0, 21, 173] := by
  decide

/-- Implementation check: HMAC-SHA256 test case 2 of RFC 4231. -/
theorem hmac_rfc4231_case2 :
    hmacSha256 (utf8Bytes "Jefe") (utf8Bytes "what do ya want for nothing?") =
      [91, 220, 193, 70, 191, 96, 117, 78, 106, 4, 36, 38, 8, 149, 117, 199, 90, 0, 63, 8,
       157, 39, 57, 131, 157, 236, 88, 185, 100, 236, 56, 67] := by
  decide

theorem string_toList_isEmpty_iff (s : String) : s.toList.isEmpty = true ↔ s = "" := by
  constructor
  · intro h
    cases s with
    | mk data =>
      cases data with
      | nil => rfl
      | cons c cs => simp [String.toList] at h
  · intro h
    rw [h]
    rfl

theorem verLt_cases (a b : Nat × Nat) : verLt a b = true ∨ verLt b a = true ∨ a = b := by
  rcases a with ⟨a1, a2⟩
  rcases b with ⟨b1, b2⟩
  simp only [verLt_iff, Prod.mk.injEq]
  omega

theorem strLtL_irrefl (l : List Char) : strLtL l l = false := by
  induction l with
  | nil => rfl
  | cons a as ih => simp [strLtL, ih, lt_irrefl]

theorem strLtL_trans (l1 : List Char) :
    ∀ l2 l3, strLtL l1 l2 = true → strLtL l2 l3 = true → strLtL l1 l3 = true := by
  induction l1 with
  | nil =>
    intro l2 l3 h12 h23
    cases l2 with
    | nil => simp [strLtL] at h12
    | cons b bs =>
      cases l3 with
      | nil => simp [strLtL] at h23
      | cons c cs => rfl
  | cons a as ih =>
    intro l2 l3 h12 h23
    cases l2 with
    | nil => simp [strLtL] at h12
    | cons b bs =>
      cases l3 with
      | nil => simp [strLtL] at h23
      | cons c cs =>
        simp only [strLtL, Bool.or_eq_true, Bool.and_eq_true, decide_eq_true_eq,
          beq_iff_eq] at h12 h23 ⊢
        rcases h12 with hab | ⟨hab, htail12⟩
        · rcases h23 with hbc | ⟨hbc, _⟩
          · exact Or.inl (lt_trans hab hbc)
          · exact Or.inl (hbc ▸ hab)
        · rcases h23 with hbc | ⟨hbc, htail23⟩
          · exact Or.inl (hab ▸ hbc)
          · exact Or.inr ⟨hab.trans hbc, ih bs cs htail12 htail23⟩

theorem rankBetter_irrefl (a : String) : rankBetter a a = false := by
  unfold rankBetter
  cases ha : isSuffixOfL ".exe".toList (toLowerL a.toList) <;>
    simp [strLtL_irrefl]

theorem rankBetter_trans (a b c : String) (h1 : rankBetter a b = true)
    (h2 : rankBetter b c = true) : rankBetter a c = true := by
  unfold rankBetter at h1 h2 ⊢
  generalize hea : isSuffixOfL ".exe".toList (toLowerL a.toList) = ea at h1 ⊢
  generalize heb : isSuffixOfL ".exe".toList (toLowerL b.toList) = eb at h1 h2
  generalize hec : isSuffixOfL ".exe".toList (toLowerL c.toList) = ec at h2 ⊢
  cases ea <;> cases eb <;> cases ec <;> simp at h1 h2 ⊢ <;>
  exact strLtL_trans _ _ _ h1 h2

/-- Every event emitted inside the heartbeat loop is a send, a send failure,
or a one-second sleep: in particular the loop never attempts a connect and
never emits the disconnect sequence. -/
theorem runLoop_events (env : RunEnv) :
    ∀ (fuel : Nat) (client : Option Unit) (t : Nat),
      ∀ e ∈ (runLoop env fuel client t).1,
        e = AgentEvent.heartbeatSend ∨ e = AgentEvent.heartbeatFail ∨
          e = AgentEvent.sleepSec := by
  intro fuel
  induction fuel with
  | zero =>
    intro client t e he
    simp [runLoop] at he
  | succ n ih =>
    intro client t e he
    simp only [runLoop] at he
    by_cases hr : env.running t = true
    · rw [if_pos hr] at he
      simp only [List.mem_append] at he
      rcases he with (he | he) | he
      · cases client with
        | some u =>
          by_cases hs : env.sendOk t = true
          · rw [hs] at he
            simp [heartbeatIter] at he
            exact Or.inl he
          · have hs' : env.sendOk t = false := by
              cases hx : env.sendOk t
              · rfl
              · exact absurd hx hs
            rw [hs'] at he
            simp [heartbeatIter] at he
            rcases he with he | he
            · exact Or.inl he
            · exact Or.inr (Or.inl he)
        | none =>
          simp [heartbeatIter] at he
          exact Or.inr (Or.inl he)
      · exact Or.inr (Or.inr (List.eq_of_mem_replicate he))
      · exact ih _ _ e he
    · have hr' : env.running t = false := by
        cases hx : env.running t
        · rfl
        · exact absurd hx hr
      rw [hr'] at he
      simp at he

theorem sleepCount_le (running : Nat → Bool) : ∀ (n t : Nat), sleepCount running t n ≤ n := by
  intro n
  induction n with
  | zero => intro t; simp [sleepCount]
  | succ n ih =>
    intro t
    unfold sleepCount
    by_cases hr : running t = true
    · rw [if_pos hr]
      have := ih (t + 1)
      omega
    · rw [if_neg hr]
      omega

/-- Once the flag is cleared from time `k` on, the sleep phase started at
time `t` ends no later than time `max t k`: at most one second after the
clearing when it happens mid-phase. -/
theorem sleepCount_shutdown (running : Nat → Bool) (k : Nat)
    (hk : ∀ j, k ≤ j → running j = false) :
    ∀ (n t : Nat), t + sleepCount running t n ≤ max t k := by
  intro n
  induction n with
  | zero => intro t; simp [sleepCount]
  | succ n ih =>
    intro t
    unfold sleepCount
    by_cases hr : running t = true
    · rw [if_pos hr]
      have htk : t < k := by
        by_contra hle
        have : running t = false := hk t (by omega)
        rw [this] at hr
        exact Bool.false_ne_true hr
      have := ih (t + 1)
      omega
    · rw [if_neg hr]
      omega

theorem string_ne_empty_data {c : String} (hc : c ≠ "") : c.data ≠ [] := by
  intro h
  apply hc
  cases c with
  | mk data =>
    have h' : data = [] := h
    rw [h']

theorem connect_notin_runLoop (env : RunEnv) (fuel : Nat) (client : Option Unit) (t : Nat) :
    AgentEvent.connectAttempt ∉ (runLoop env fuel client t).1 := by
  intro hmem
  rcases runLoop_events env fuel client t _ hmem with h | h | h <;> exact AgentEvent.noConfusion h

theorem disconnect_notin_runLoop (env : RunEnv) (fuel : Nat) (client : Option Unit) (t : Nat) :
    AgentEvent.disconnect ∉ (runLoop env fuel client t).1 := by
  intro hmem
  rcases runLoop_events env fuel client t _ hmem with h | h | h <;> exact AgentEvent.noConfusion h

/-- C1 (amended): a heartbeat send failure invalidates the session reference
and the loop continues without crashing, but `connect()` is never re-entered —
a run performs at most one connect attempt (at startup), and an initial
connection failure ends the run. -/
theorem claim_C1 :
    (∀ (env : RunEnv) (fuel : Nat) (client : Option Unit) (t : Nat),
      AgentEvent.connectAttempt ∉ (runLoop env fuel client t).1) ∧
    (∀ (env : RunEnv) (fuel : Nat),
      (runAgent env fuel).count AgentEvent.connectAttempt ≤ 1) ∧
    (∀ client : Option Unit, (heartbeatIter client false).2 = none) ∧
    (∀ (env : RunEnv) (fuel t : Nat), env.running t = true →
      (runLoop env (fuel + 1) none t).1 ≠ []) ∧
    (∀ (env : RunEnv) (fuel : Nat), env.provisionOk = true → env.connectOk = false →
      runAgent env fuel = [AgentEvent.provisionAttempt, AgentEvent.connectAttempt]) := by
  refine ⟨connect_notin_runLoop, ?_, ?_, ?_, ?_⟩
  · intro env fuel
    unfold runAgent
    by_cases hp : env.provisionOk = true
    · by_cases hc : env.connectOk = true
      · simp only [hp, hc, Bool.not_true, Bool.false_eq_true, if_false]
        rw [List.count_append, List.count_append]
        rw [List.count_eq_zero.mpr (connect_notin_runLoop env fuel (some ()) 0)]
        cases hcl : (runLoop env fuel (some ()) 0).2 <;> simp
      · have hc' : env.connectOk = false := by
          cases hx : env.connectOk
          · rfl
          · exact absurd hx hc
        simp only [hp, hc', Bool.not_true, Bool.not_false, Bool.false_eq_true, if_false,
          if_true]
        decide
    · have hp' : env.provisionOk = false := by
        cases hx : env.provisionOk
        · rfl
        · exact absurd hx hp
      simp only [hp', Bool.not_false, if_true]
      decide
  · intro client
    cases client <;> rfl
  · intro env fuel t hr
    simp [runLoop, hr, heartbeatIter]
  · intro env fuel hp hc
    simp [runAgent, hp, hc]

theorem claim_C1_witness :
    AgentEvent.connectAttempt ∉
      (runLoop ⟨true, true, fun _ => false, fun _ => true⟩ 2 (some ()) 0).1 ∧
    runAgent ⟨true, false, fun _ => true, fun _ => true⟩ 2 =
      [AgentEvent.provisionAttempt, AgentEvent.connectAttempt] :=
  ⟨claim_C1.1 ⟨true, true, fun _ => false, fun _ => true⟩ 2 (some ()) 0,
   claim_C1.2.2.2.2 ⟨true, false, fun _ => true, fun _ => true⟩ 2 rfl rfl⟩

/-- C1 counterexample: in a run whose heartbeat send fails at tick 0 (the
session reference is invalidated) and which keeps running for two further
ticks, the trace contains three send failures but exactly one connect attempt
— the loop never re-enters `connect()`; and with a failing initial connect
the whole run is just provision-then-connect — a `ConnectionFailure` does end
the process. -/
theorem claim_C1_cex :
    (runAgent agentEnvSendFail 5).count AgentEvent.heartbeatFail = 3 ∧
    (runAgent agentEnvSendFail 5).count AgentEvent.connectAttempt = 1 ∧
    runAgent agentEnvConnFail 5 =
      [AgentEvent.provisionAttempt, AgentEvent.connectAttempt] := by
  decide

/-- C8 (amended): once the shutdown flag is cleared from time `k` on, the
sleep phase (at most 60 one-second increments) ends by time `max t k` — the
cancellation is observed within one second; the disconnect sequence is issued
at most once, and exactly once iff the session reference is still live when
the loop exits (a prior send failure leaves it `None` and the disconnect
sequence is skipped). -/
theorem claim_C8 :
    (∀ (running : Nat → Bool) (t k : Nat), (∀ j, k ≤ j → running j = false) →
      sleepCount running t 60 ≤ 60 ∧ t + sleepCount running t 60 ≤ max t k) ∧
    (∀ (env : RunEnv) (fuel : Nat),
      (runAgent env fuel).count AgentEvent.disconnect ≤ 1) ∧
    (∀ (env : RunEnv) (fuel : Nat), env.provisionOk = true → env.connectOk = true →
      (runAgent env fuel).count AgentEvent.disconnect =
        if (runLoop env fuel (some ()) 0).2.isSome then 1 else 0) := by
  refine ⟨?_, ?_, ?_⟩
  · intro running t k hk
    exact ⟨sleepCount_le running 60 t, sleepCount_shutdown running k hk 60 t⟩
  · intro env fuel
    unfold runAgent
    by_cases hp : env.provisionOk = true
    · by_cases hc : env.connectOk = true
      · simp only [hp, hc, Bool.not_true, Bool.false_eq_true, if_false]
        rw [List.count_append, List.count_append]
        rw [List.count_eq_zero.mpr (disconnect_notin_runLoop env fuel (some ()) 0)]
        cases hcl : (runLoop env fuel (some ()) 0).2 <;> simp
      · have hc' : env.connectOk = false := by
          cases hx : env.connectOk
          · rfl
          · exact absurd hx hc
        simp only [hp, hc', Bool.not_true, Bool.not_false, Bool.false_eq_true, if_false,
          if_true]
        decide
    · have hp' : env.provisionOk = false := by
        cases hx : env.provisionOk
        · rfl
        · exact absurd hx hp
      simp only [hp', Bool.not_false, if_true]
      decide
  · intro env fuel hp hc
    unfold runAgent
    simp only [hp, hc, Bool.not_true, Bool.false_eq_true, if_false]
    rw [List.count_append, List.count_append]
    rw [List.count_eq_zero.mpr (disconnect_notin_runLoop env fuel (some ()) 0)]
    cases hcl : (runLoop env fuel (some ()) 0).2 <;> simp [hcl]

theorem claim_C8_witness :
    (sleepCount (fun _ => false) 0 60 ≤ 60 ∧
      0 + sleepCount (fun _ => false) 0 60 ≤ max 0 0) ∧
    (runAgent ⟨true, true, fun _ => true, fun _ => true⟩ 0).count AgentEvent.disconnect =
      (if (runLoop ⟨true, true, fun _ => true, fun _ => true⟩ 0 (some ()) 0).2.isSome then 1
       else 0) :=
  ⟨claim_C8.1 (fun _ => false) 0 0 (fun _ _ => rfl),
   claim_C8.2.2 ⟨true, true, fun _ => true, fun _ => true⟩ 0 rfl rfl⟩

/-- C8 counterexample: the heartbeat send fails at tick 0, so the session
reference is `None`; the shutdown flag is cleared by time 100 and the loop
exits, but the disconnect sequence is issued zero times, not exactly once. -/
theorem claim_C8_cex :
    agentEnvFailThenStop.running 100 = false ∧
    (runAgent agentEnvFailThenStop 5).count AgentEvent.heartbeatFail = 2 ∧
    (runAgent agentEnvFailThenStop 5).count AgentEvent.finalMsg = 0 ∧
    (runAgent agentEnvFailThenStop 5).count AgentEvent.disconnect = 0 := by
  decide

/-- C4: the dispatcher returns exactly one of three structured responses —
400 with "No command provided" when the command is absent or empty, 200 with
(return code, stdout, stderr) when the spawned process completes, 500 with
the exception message on any execution exception — and, being a total
function of request and outcome, it never escapes an exception. -/
theorem claim_C4 : ∀ (cmd : Option String) (exec : ExecOutcome),
    (cmd = none ∨ cmd = some "" →
      handleMethodRequest cmd exec = (400, MethodPayload.errorP "No command provided")) ∧
    (∀ c rc out err, cmd = some c → c ≠ "" → exec = ExecOutcome.completed rc out err →
      handleMethodRequest cmd exec = (200, MethodPayload.successP rc out err)) ∧
    (∀ c m, cmd = some c → c ≠ "" → exec = ExecOutcome.failed m →
      handleMethodRequest cmd exec = (500, MethodPayload.errorP m)) ∧
    ((handleMethodRequest cmd exec).1 = 400 ∨ (handleMethodRequest cmd exec).1 = 200 ∨
      (handleMethodRequest cmd exec).1 = 500) := by
  intro cmd exec
  refine ⟨?_, ?_, ?_, ?_⟩
  · rintro (rfl | rfl)
    · rfl
    · cases exec <;> rfl
  · rintro c rc out err rfl hc rfl
    simp [handleMethodRequest, string_ne_empty_data hc]
  · rintro c m rfl hc rfl
    simp [handleMethodRequest, string_ne_empty_data hc]
  · unfold handleMethodRequest
    cases cmd with
    | none => simp
    | some c =>
      cases hd : c.data with
      | nil => simp [String.toList, hd]
      | cons x xs => cases exec <;> simp [String.toList, hd]

theorem claim_C4_witness :
    handleMethodRequest none (ExecOutcome.failed "boom") =
      (400, MethodPayload.errorP "No command provided") ∧
    handleMethodRequest (some "ls") (ExecOutcome.completed 0 "out" "") =
      (200, MethodPayload.successP 0 "out" "") ∧
    handleMethodRequest (some "ls") (ExecOutcome.failed "timeout") =
      (500, MethodPayload.errorP "timeout") :=
  ⟨(claim_C4 none (ExecOutcome.failed "boom")).1 (Or.inl rfl),
   (claim_C4 (some "ls") (ExecOutcome.completed 0 "out" "")).2.1 "ls" 0 "out" "" rfl
     (by decide) rfl,
   (claim_C4 (some "ls") (ExecOutcome.failed "timeout")).2.2.1 "ls" "timeout" rfl
     (by decide) rfl⟩

/-- C3: `find_newer_build` returns `None` exactly when no candidate is
strictly newer than the current version; a returned build is an available
candidate, strictly newer, and of maximal parsed value among the strictly
newer candidates; on the concrete set with current `"20240101.9"` it returns
`"20250101.2"`, and removing `"bogus"` leaves the selection unchanged. -/
theorem claim_C3 :
    (∀ (avail : List String) (cur : String),
      (find_newer_build avail cur = none ↔ ∀ b ∈ avail, is_version_newer b cur = false) ∧
      (∀ r, find_newer_build avail cur = some r →
        r ∈ avail ∧ is_version_newer r cur = true ∧
        ∀ q ∈ avail, is_version_newer q cur = true →
          verLt (parse_build_version r) (parse_build_version q) = false)) ∧
    find_newer_build ["20250101.1", "20250101.2", "20240101.9", "bogus"] "20240101.9" =
      some "20250101.2" ∧
    find_newer_build ["20250101.1", "20250101.2", "20240101.9"] "20240101.9" =
      some "20250101.2" :=
  ⟨fun avail cur => ⟨find_newer_build_none avail cur,
    fun r h => find_newer_build_some avail cur r h⟩, by decide, by decide⟩

theorem claim_C3_witness :
    "20250101.2" ∈ ["20250101.1", "20250101.2", "20240101.9", "bogus"] ∧
    is_version_newer "20250101.2" "20240101.9" = true :=
  ⟨((claim_C3.1 ["20250101.1", "20250101.2", "20240101.9", "bogus"] "20240101.9").2
      "20250101.2" claim_C3.2.1).1,
   ((claim_C3.1 ["20250101.1", "20250101.2", "20240101.9", "bogus"] "20240101.9").2
      "20250101.2" claim_C3.2.1).2.1⟩

/-- C7 (amended): parsing is total; every string matching `^\d{8}\.\d+$`
round-trips to its two numeric components; every string whose *stripped* form
fails the regex parses to the sentinel `(0, 0)` (a string that matches only
after whitespace stripping parses to its components instead); and the
sentinel ranks at or below every well-formed version — strictly below unless
the version's numeric value is itself `(0, 0)` (e.g. `"00000000.0"`). -/
theorem claim_C7 :
    (∀ s : String, wellFormed s = true →
      parse_build_version s =
        (digitsToNat (s.toList.take 8), digitsToNat (s.toList.drop 9))) ∧
    (∀ s : String, wellFormed (pythonStrip s) = false → parse_build_version s = (0, 0)) ∧
    (∀ s : String, wellFormed s = true →
      parse_build_version s = (0, 0) ∨ verLt (0, 0) (parse_build_version s) = true) := by
  refine ⟨parse_of_wellFormed, parse_sentinel, ?_⟩
  intro s hw
  rcases h : parse_build_version s with ⟨d, q⟩
  by_cases hz : d = 0 ∧ q = 0
  · left
    rw [hz.1, hz.2]
  · right
    rw [verLt_iff]
    simp only
    omega

theorem claim_C7_witness :
    parse_build_version "20250101.2" =
      (digitsToNat ("20250101.2".toList.take 8), digitsToNat ("20250101.2".toList.drop 9)) ∧
    parse_build_version "bogus" = (0, 0) :=
  ⟨claim_C7.1 "20250101.2" (by decide), claim_C7.2.1 "bogus" (by decide)⟩

/-- C7 counterexample: `" 20250101.1"` does not match the regex but (because
the source strips first) parses to `(20250101, 1)`, not to the sentinel; and
`"00000000.0"` matches the regex yet parses exactly to the sentinel `(0, 0)`,
which therefore does not rank strictly below it. -/
theorem claim_C7_cex :
    wellFormed " 20250101.1" = false ∧
    parse_build_version " 20250101.1" = (20250101, 1) ∧
    wellFormed "00000000.0" = true ∧
    parse_build_version "00000000.0" = (0, 0) ∧
    verLt (0, 0) (0, 0) = false := by
  decide

/-- C5 (amended): on a listing error the discovery returns `None`; otherwise
allow-list matches and fallback files (both restricted to paths under
`<base>/<build>/` whose lower-cased form contains `/raspberrypi/`) are
collected in a single pass, and the selected blob is a candidate of minimal
rank (`.exe`-suffixed after non-suffixed, then lexicographic by full path) —
so a fallback file can win over an allow-list match. -/
theorem claim_C5 :
    (∀ bp build : String, find_raspberrypi_blob_path bp build none = none) ∧
    (∀ (bp build : String) (blobs : List String),
      find_raspberrypi_blob_path bp build (some blobs) = none ↔
        rpiCandidates bp build blobs = []) ∧
    (∀ (bp build : String) (blobs : List String) (r : String),
      find_raspberrypi_blob_path bp build (some blobs) = some r →
        r ∈ blobs ∧
        isPrefixOfL (bp.toList ++ ['/'] ++ build.toList ++ ['/']) r.toList = true ∧
        isInfixOfL "/raspberrypi/".toList (toLowerL r.toList) = true ∧
        rpiAccept (toLowerL r.toList) = true ∧
        ∀ q ∈ rpiCandidates bp build blobs, rankBetter q r = false) := by
  refine ⟨fun bp build => rfl, ?_, ?_⟩
  · intro bp build blobs
    unfold find_raspberrypi_blob_path
    exact pyBest_eq_none rankBetter _
  · intro bp build blobs r h
    unfold find_raspberrypi_blob_path at h
    obtain ⟨hmem, hbest⟩ := pyBest_spec rankBetter rankBetter_trans rankBetter_irrefl _ r h
    have hmem' := hmem
    unfold rpiCandidates at hmem'
    have h2 := List.mem_filter.mp hmem'
    have h1 := List.mem_filter.mp h2.1
    have hand := h2.2
    rw [Bool.and_eq_true] at hand
    exact ⟨h1.1, h1.2, hand.1, hand.2, hbest⟩

theorem claim_C5_witness :
    find_raspberrypi_blob_path "builds" "b" none = none ∧
    ("builds/b/RaspberryPi/AAA" ∈
      ["builds/b/RaspberryPi/AAA", "builds/b/RaspberryPi/NexusRFIDReader"]) ∧
    rpiAccept (toLowerL "builds/b/RaspberryPi/AAA".toList) = true :=
  ⟨claim_C5.1 "builds" "b",
   (claim_C5.2.2 "builds" "b"
      ["builds/b/RaspberryPi/AAA", "builds/b/RaspberryPi/NexusRFIDReader"]
      "builds/b/RaspberryPi/AAA" (by decide)).1,
   (claim_C5.2.2 "builds" "b"
      ["builds/b/RaspberryPi/AAA", "builds/b/RaspberryPi/NexusRFIDReader"]
      "builds/b/RaspberryPi/AAA" (by decide)).2.2.2.1⟩

/-- C5 counterexample: with both an allow-list blob
(`.../RaspberryPi/NexusRFIDReader`) and a fallback blob (`.../RaspberryPi/AAA`)
present, the code ranks them together and picks the fallback (it sorts
first lexicographically), whereas the spec's two-phase procedure would pick
the allow-list name — the fallback is *not* used only when no allow-list
name matches. -/
theorem claim_C5_cex :
    find_raspberrypi_blob_path "builds" "b"
        (some ["builds/b/RaspberryPi/AAA", "builds/b/RaspberryPi/NexusRFIDReader"]) =
      some "builds/b/RaspberryPi/AAA" ∧
    specLocateArtifact "builds" "b"
        ["builds/b/RaspberryPi/AAA", "builds/b/RaspberryPi/NexusRFIDReader"] =
      some "builds/b/RaspberryPi/NexusRFIDReader" := by
  decide

/-- C9: the derived credential is exactly
`base64(HMAC-SHA256(base64decode(groupKey), UTF8(registrationId)))` whenever
the group key decodes (and `None` otherwise); the function is pure, so equal
inputs give equal outputs; and a concrete key/id pair evaluates to the value
computed independently by a reference implementation. -/
theorem claim_C9 :
    (∀ group_key registration_id : String,
      compute_derived_key group_key registration_id =
        (base64Decode group_key).map
          (fun keyBytes => base64Encode (hmacSha256 keyBytes (utf8Bytes registration_id)))) ∧
    (∀ group_key registration_id : String,
      compute_derived_key group_key registration_id =
        compute_derived_key group_key registration_id) ∧
    compute_derived_key "AAAABBBBCCCC" "device1" =
      some "eLCZvOnYldwxDHS05DAkKlUPvOI73uYpStf0ltzW15Y=" := by
  refine ⟨?_, fun _ _ => rfl, by decide⟩
  intro gk rid
  unfold compute_derived_key
  cases h : base64Decode gk <;> simp

theorem bool_eq_false {b : Bool} (h : ¬ b = true) : b = false := by
  cases b
  · rfl
  · exact absurd rfl h

/-- Shape of every `main` run: the exit code is one of 0, 2, 3, 4, 5, and the
config file is rewritten only when the download succeeded. -/
theorem mainRun_shape (env : UpdaterEnv) :
    ((mainRun env).1 = 0 ∨ (mainRun env).1 = 2 ∨ (mainRun env).1 = 3 ∨
      (mainRun env).1 = 4 ∨ (mainRun env).1 = 5) ∧
    ((mainRun env).2 ≠ [] → env.downloadOk = true) := by
  unfold mainRun
  cases hload : env.load with
  | notFound => exact ⟨Or.inr (Or.inl rfl), fun h => absurd rfl h⟩
  | badJson => exact ⟨Or.inr (Or.inl rfl), fun h => absurd rfl h⟩
  | ok config =>
    by_cases hmiss : requiredMissing config.deviceUpdate = true
    · simp [hmiss]
    · have hmiss' := bool_eq_false hmiss
      by_cases hcl : env.clientOk = true
      · cases hlist : env.listing with
        | none => simp [hmiss', hcl, hlist]
        | some blobNames =>
          cases hmax : maxByParsed (list_available_builds
              (normalize_base_path config.deviceUpdate.blobBasePath) blobNames) with
          | none => simp [hmiss', hcl, hlist, hmax]
          | some latest =>
            by_cases hnew : is_version_newer latest config.deviceUpdate.currentVersion = true
            · cases hsel : selectedArtifact env
                  (normalize_base_path config.deviceUpdate.blobBasePath) latest with
              | none => simp [hmiss', hcl, hlist, hmax, hnew, hsel]
              | some p =>
                by_cases hdl : env.downloadOk = true
                · by_cases hper : env.persistOk = true
                  · simp [hmiss', hcl, hlist, hmax, hnew, hsel, hdl, hper]
                  · simp [hmiss', hcl, hlist, hmax, hnew, hsel, hdl,
                      bool_eq_false hper]
                · simp [hmiss', hcl, hlist, hmax, hnew, hsel, bool_eq_false hdl]
            · simp [hmiss', hcl, hlist, hmax, bool_eq_false hnew]
      · simp [hmiss', bool_eq_false hcl]

/-- C2: on every run that reaches the download step and fails there, the exit
code is 5 (non-zero) and no `currentVersion` write is performed — and more
generally the config file is rewritten only on runs whose byte transfer fully
succeeded, so the persisted `currentVersion` is bit-for-bit unchanged on
every failing path. -/
theorem claim_C2 :
    (∀ (env : UpdaterEnv) (config : ProvConfig) (blobNames : List String) (latest : String),
      env.load = LoadResult.ok config →
      requiredMissing config.deviceUpdate = false →
      env.clientOk = true →
      env.listing = some blobNames →
      maxByParsed (list_available_builds
        (normalize_base_path config.deviceUpdate.blobBasePath) blobNames) = some latest →
      is_version_newer latest config.deviceUpdate.currentVersion = true →
      (selectedArtifact env (normalize_base_path config.deviceUpdate.blobBasePath)
        latest).isSome = true →
      env.downloadOk = false →
      mainRun env = (5, [])) ∧
    (∀ env : UpdaterEnv, (mainRun env).2 ≠ [] → env.downloadOk = true) := by
  refine ⟨?_, fun env => (mainRun_shape env).2⟩
  intro env config blobNames latest hload hmiss hclient hlist hmax hnewer hsel hdl
  obtain ⟨p, hp⟩ := Option.isSome_iff_exists.mp hsel
  simp [mainRun, hload, hmiss, hclient, hlist, hmax, hnewer, hp, hdl]

theorem claim_C2_witness : mainRun updEnvDlFail = (5, []) :=
  claim_C2.1 updEnvDlFail updCfg ["builds/20250101.1/RaspberryPi/NexusRFIDReader"]
    "20250101.1" rfl (by decide) rfl rfl (by decide) (by decide) (by decide) rfl

/-- C6: the exit code of every run is exactly as the table prescribes —
2 for a missing config file, malformed JSON or missing required
`deviceUpdate` field, 3 for a failing client construction, 4 for a failing
build listing, 5 for a failing download, 0 for every success or no-op leaf
(no builds, no newer build, no downloadable artifact, and success even when
the final config rewrite fails) — and no other code occurs. -/
theorem claim_C6 : ∀ env : UpdaterEnv,
    (env.load = LoadResult.notFound → mainRun env = (2, [])) ∧
    (env.load = LoadResult.badJson → mainRun env = (2, [])) ∧
    (∀ config, env.load = LoadResult.ok config →
      requiredMissing config.deviceUpdate = true → mainRun env = (2, [])) ∧
    (∀ config, env.load = LoadResult.ok config →
      requiredMissing config.deviceUpdate = false → env.clientOk = false →
      mainRun env = (3, [])) ∧
    (∀ config, env.load = LoadResult.ok config →
      requiredMissing config.deviceUpdate = false → env.clientOk = true →
      env.listing = none → mainRun env = (4, [])) ∧
    (∀ config blobNames, env.load = LoadResult.ok config →
      requiredMissing config.deviceUpdate = false → env.clientOk = true →
      env.listing = some blobNames →
      maxByParsed (list_available_builds
        (normalize_base_path config.deviceUpdate.blobBasePath) blobNames) = none →
      mainRun env = (0, [])) ∧
    (∀ config blobNames latest, env.load = LoadResult.ok config →
      requiredMissing config.deviceUpdate = false → env.clientOk = true →
      env.listing = some blobNames →
      maxByParsed (list_available_builds
        (normalize_base_path config.deviceUpdate.blobBasePath) blobNames) = some latest →
      is_version_newer latest config.deviceUpdate.currentVersion = false →
      mainRun env = (0, [])) ∧
    (∀ config blobNames latest, env.load = LoadResult.ok config →
      requiredMissing config.deviceUpdate = false → env.clientOk = true →
      env.listing = some blobNames →
      maxByParsed (list_available_builds
        (normalize_base_path config.deviceUpdate.blobBasePath) blobNames) = some latest →
      is_version_newer latest config.deviceUpdate.currentVersion = true →
      selectedArtifact env (normalize_base_path config.deviceUpdate.blobBasePath) latest
        = none →
      mainRun env = (0, [])) ∧
    (∀ config blobNames latest p, env.load = LoadResult.ok config →
      requiredMissing config.deviceUpdate = false → env.clientOk = true →
      env.listing = some blobNames →
      maxByParsed (list_available_builds
        (normalize_base_path config.deviceUpdate.blobBasePath) blobNames) = some latest →
      is_version_newer latest config.deviceUpdate.currentVersion = true →
      selectedArtifact env (normalize_base_path config.deviceUpdate.blobBasePath) latest
        = some p →
      env.downloadOk = false → mainRun env = (5, [])) ∧
    (∀ config blobNames latest p, env.load = LoadResult.ok config →
      requiredMissing config.deviceUpdate = false → env.clientOk = true →
      env.listing = some blobNames →
      maxByParsed (list_available_builds
        (normalize_base_path config.deviceUpdate.blobBasePath) blobNames) = some latest →
      is_version_newer latest config.deviceUpdate.currentVersion = true →
      selectedArtifact env (normalize_base_path config.deviceUpdate.blobBasePath) latest
        = some p →
      env.downloadOk = true → (mainRun env).1 = 0) ∧
    ((mainRun env).1 = 0 ∨ (mainRun env).1 = 2 ∨ (mainRun env).1 = 3 ∨
      (mainRun env).1 = 4 ∨ (mainRun env).1 = 5) := by
  intro env
  refine ⟨?_, ?_, ?_, ?_, ?_, ?_, ?_, ?_, ?_, ?_, (mainRun_shape env).1⟩
  · intro h
    simp [mainRun, h]
  · intro h
    simp [mainRun, h]
  · intro config hload hmiss
    simp [mainRun, hload, hmiss]
  · intro config hload hmiss hcl
    simp [mainRun, hload, hmiss, hcl]
  · intro config hload hmiss hcl hlist
    simp [mainRun, hload, hmiss, hcl, hlist]
  · intro config blobNames hload hmiss hcl hlist hmax
    simp [mainRun, hload, hmiss, hcl, hlist, hmax]
  · intro config blobNames latest hload hmiss hcl hlist hmax hnew
    simp [mainRun, hload, hmiss, hcl, hlist, hmax, hnew]
  · intro config blobNames latest hload hmiss hcl hlist hmax hnew hsel
    simp [mainRun, hload, hmiss, hcl, hlist, hmax, hnew, hsel]
  · intro config blobNames latest p hload hmiss hcl hlist hmax hnew hsel hdl
    simp [mainRun, hload, hmiss, hcl, hlist, hmax, hnew, hsel, hdl]
  · intro config blobNames latest p hload hmiss hcl hlist hmax hnew hsel hdl
    by_cases hper : env.persistOk = true
    · simp [mainRun, hload, hmiss, hcl, hlist, hmax, hnew, hsel, hdl, hper]
    · simp [mainRun, hload, hmiss, hcl, hlist, hmax, hnew, hsel, hdl, bool_eq_false hper]

theorem claim_C6_witness :
    mainRun ⟨LoadResult.notFound, true, none, none, false, false, false⟩ = (2, []) :=
  (claim_C6 ⟨LoadResult.notFound, true, none, none, false, false, false⟩).1 rfl

/-- C10: on every non-empty collection of available builds, `main`'s inline
selection (global maximum, kept only if strictly newer than current) and
`find_newer_build` (filter strictly newer, then maximum) agree on whether an
update exists, and when one exists the two selected builds have equal parsed
values. -/
theorem claim_C10 : ∀ (builds : List String) (cur : String), builds ≠ [] →
    ((mainInlineSelect builds cur).isSome ↔ (find_newer_build builds cur).isSome) ∧
    (∀ a b, mainInlineSelect builds cur = some a → find_newer_build builds cur = some b →
      parse_build_version a = parse_build_version b) := by
  intro builds cur hne
  cases hmax : maxByParsed builds with
  | none => exact absurd ((pyBest_eq_none _ _).mp hmax) hne
  | some l =>
    obtain ⟨hlmem, hlbest⟩ := pyBest_spec
      (fun c best => verLt (parse_build_version best) (parse_build_version c))
      (fun a b c h1 h2 => verLt_trans _ _ _ h2 h1)
      (fun a => verLt_irrefl _) builds l hmax
    by_cases hnew : is_version_newer l cur = true
    · have hmain : mainInlineSelect builds cur = some l := by
        simp [mainInlineSelect, hmax, hnew]
      cases hf : find_newer_build builds cur with
      | none =>
        have hcontra := (find_newer_build_none builds cur).mp hf l hlmem
        rw [hnew] at hcontra
        exact absurd hcontra (by decide)
      | some m =>
        obtain ⟨hmmem, hmnew, hmbest⟩ := find_newer_build_some builds cur m hf
        refine ⟨by simp [hmain, hf], ?_⟩
        intro a b ha hb
        rw [hmain] at ha
        injection ha with ha
        injection hb with hb
        rw [← ha, ← hb]
        exact verLt_connex _ _ (hlbest m hmmem) (hmbest l hlmem hnew)
    · have hnew' := bool_eq_false hnew
      have hmain : mainInlineSelect builds cur = none := by
        simp [mainInlineSelect, hmax, hnew']
      have hf : find_newer_build builds cur = none := by
        apply (find_newer_build_none builds cur).mpr
        intro b hb
        cases hq : is_version_newer b cur
        · rfl
        · exfalso
          have hbl := hlbest b hb
          unfold is_version_newer at hq hnew'
          rcases verLt_cases (parse_build_version b) (parse_build_version l) with
            hc | hc | hc
          · have := verLt_trans _ _ _ hq hc
            rw [hnew'] at this
            exact Bool.false_ne_true this
          · rw [hbl] at hc
            exact Bool.false_ne_true hc
          · rw [hc] at hq
            rw [hnew'] at hq
            exact Bool.false_ne_true hq
      refine ⟨by simp [hmain, hf], ?_⟩
      intro a b ha _
      rw [hmain] at ha
      exact Option.noConfusion ha

theorem claim_C10_witness :
    (mainInlineSelect ["20250101.1"] "20240101.9").isSome ↔
      (find_newer_build ["20250101.1"] "20240101.9").isSome :=
  (claim_C10 ["20250101.1"] "20240101.9" (by decide)).1

end Azure

